import Mathlib

/-!
Shallow embedding of `src/main.py` (steady-state sweep script) and proofs
about it.

The script reads a concentration sequence from a spreadsheet, interactively
collects a species selection and reaction-parameter overrides against a
loaded COPASI model, defines a sweep function `analyze_steady_states`, and
finally writes `pd.concat([steady_state_analysis_df, handle_parameters_df()],
axis=1)` to a CSV file.

External collaborators (the COPASI model facade, Python `float()`, pandas)
are modelled explicitly:
  * the model is a `ModelState` (association lists for species initial
    concentrations and reaction-parameter values);
  * `run_steadystate` followed by `get_species()[['concentration']]` is an
    oracle `readConc : ModelState → Option (List Dec)` (`none` models the
    `KeyError` raised when no concentration column is available);
  * pandas dataframes are `DF` values, with `dfAppend` modelling
    `DataFrame.append` (row-wise, column union) and `concatCols` modelling
    `pd.concat(_, axis=1)` (column-wise, outer join on the row index,
    failing on duplicate row labels when the indexes differ);
  * Python values that flow into `float()` are `PyVal` (a number or a
    string), with `pyFloat`/`strFloat` modelling the coercion.
-/

/-- A floating-point number as the script handles it, kept in exact
decimal form: the value is `mant / 10 ^ exp`.  The script never computes
with these values — it only parses, stores and moves them — so the exact
decimal representation is a faithful executable model of the Python
floats. -/
structure Dec where
  mant : ℤ
  exp : ℕ
deriving DecidableEq

/-- A Python value as it occurs in the concentration sequence and in
dataframe cells: either a number or a raw string. -/
inductive PyVal where
  | num : Dec → PyVal
  | str : String → PyVal
deriving DecidableEq

/-- Model of Python `str.lower()` restricted to ASCII, which is all the
script compares against (the sentinel `'done'`). -/
def lowerStr (s : String) : String :=
  String.mk (s.data.map Char.toLower)

/-- The sentinel test used by both interactive loops in the source:
`input.lower() == 'done'` (lines 59 and 102 of `src/main.py`). -/
def isDone (s : String) : Bool :=
  lowerStr s == "done"

/-- Strip leading and trailing whitespace, as Python `float()` does on
string input. -/
def stripSpaces (cs : List Char) : List Char :=
  ((cs.dropWhile Char.isWhitespace).reverse.dropWhile Char.isWhitespace).reverse

/-- Digits to a natural number, most significant first. -/
def digitsToNat (l : List Char) : ℕ :=
  l.foldl (fun a c => a * 10 + (c.toNat - 48)) 0

/-- Model of Python `float()` applied to a string: optional sign, then
digits with an optional single decimal point.  Returns `none` when the
string does not parse (Python raises `ValueError`). -/
def strFloat (s : String) : Option Dec :=
  let cs := stripSpaces s.data
  let signed : Bool × List Char :=
    match cs with
    | '-' :: t => (true, t)
    | '+' :: t => (false, t)
    | t => (false, t)
  let neg := signed.1
  let intPart := signed.2.takeWhile Char.isDigit
  let rest := signed.2.dropWhile Char.isDigit
  let signedMant : List Char → ℤ := fun digits =>
    if neg then -(digitsToNat digits : ℤ) else (digitsToNat digits : ℤ)
  match rest with
  | [] => if intPart.isEmpty then none else some ⟨signedMant intPart, 0⟩
  | '.' :: frac =>
    if frac.all Char.isDigit && !(intPart.isEmpty && frac.isEmpty) then
      some ⟨signedMant (intPart ++ frac), frac.length⟩
    else none
  | _ => none

/-- Model of Python `float()` on a value of the concentration sequence:
a number coerces to itself, a string is parsed. -/
def pyFloat : PyVal → Option Dec
  | .num q => some q
  | .str s => strFloat s

/-- The mutable COPASI model as the script sees it: species initial
concentrations and reaction-parameter values, keyed by name.  The key sets
are fixed by the loaded model file. -/
structure ModelState where
  init : List (String × Dec)
  params : List (String × Dec)
deriving DecidableEq

/-- Update the first entry with the given key in an association list;
an absent key leaves the list unchanged (basico's setters warn and do
nothing for a name that does not exist in the model). -/
def updAssoc (k : String) (v : Dec) : List (String × Dec) → List (String × Dec)
  | [] => []
  | (k₁, v₁) :: rest =>
    if k₁ = k then (k, v) :: rest else (k₁, v₁) :: updAssoc k v rest

/-- Model of `set_species(name=spec, initial_concentration=concentration)`. -/
def set_species (name : String) (v : Dec) (st : ModelState) : ModelState :=
  { st with init := updAssoc name v st.init }

/-- Model of `set_reaction_parameters(parameter_name, value=rate_value)`. -/
def set_reaction_parameters (name : String) (v : Dec) (st : ModelState) : ModelState :=
  { st with params := updAssoc name v st.params }

/-- The `for spec in list_of_species_init_conc` loop of `set_init_conc`
(lines 146-147): set every selected species to the coerced concentration. -/
def setSpeciesList (selected : List String) (x : Dec) (st : ModelState) : ModelState :=
  selected.foldl (fun s n => set_species n x s) st

/-- `set_init_conc` (lines 129-147): coerce the concentration with
`float()`; on failure raise `ValueError` (modelled as `.error`), otherwise
set every selected species to it. -/
def set_init_conc (list_of_species_init_conc : List String) (concentration : PyVal)
    (st : ModelState) : Except String ModelState :=
  match pyFloat concentration with
  | none => .error "The concentration value could not be converted to a float."
  | some x => .ok (setSpeciesList list_of_species_init_conc x st)

/-- A pandas dataframe: ordered column names and rows, each row a label
plus one cell per column (`none` is NaN / a missing value). -/
structure DF where
  cols : List String
  rows : List (String × List (Option PyVal))
deriving DecidableEq

/-- The row index of a dataframe. -/
def DF.labels (d : DF) : List String :=
  d.rows.map Prod.fst

/-- The cells of the first row with the given label, if any. -/
def lookupRow (d : DF) (l : String) : Option (List (Option PyVal)) :=
  (d.rows.find? (fun r => r.1 == l)).map Prod.snd

/-- The cell of a row (given as cells aligned with `oldCols`) in column
`c`, or NaN when the column is absent. -/
def cellAt (oldCols : List String) (cells : List (Option PyVal)) (c : String) : Option PyVal :=
  match oldCols.findIdx? (fun x => x == c) with
  | some i => cells.getD i none
  | none => none

/-- Re-align a row's cells to a new column list, filling absent columns
with NaN. -/
def reindexRow (oldCols : List String) (cells : List (Option PyVal))
    (newCols : List String) : List (Option PyVal) :=
  newCols.map (cellAt oldCols cells)

/-- Model of `DataFrame.append` (line 187): rows of both frames stacked,
columns the union (existing columns first, new ones after, in order),
missing cells NaN. -/
def dfAppend (a b : DF) : DF :=
  let cols := a.cols ++ b.cols.filter (fun c => !a.cols.contains c)
  { cols := cols
    rows := a.rows.map (fun r => (r.1, reindexRow a.cols r.2 cols))
        ++ b.rows.map (fun r => (r.1, reindexRow b.cols r.2 cols)) }

/-- Model of `pd.concat([a, b], axis=1)` (line 226): with identical row
indexes the frames are pasted side by side; with differing indexes both are
re-indexed to the union, which requires unique labels (pandas raises on
duplicates) and fills missing cells with NaN. -/
def concatCols (a b : DF) : Except String DF :=
  if a.labels = b.labels then
    .ok { cols := a.cols ++ b.cols
          rows := (a.rows.zip b.rows).map (fun p => (p.1.1, p.1.2 ++ p.2.2)) }
  else if a.labels.Nodup ∧ b.labels.Nodup then
    let labels := a.labels ++ b.labels.filter (fun l => !a.labels.contains l)
    .ok { cols := a.cols ++ b.cols
          rows := labels.map (fun l =>
            (l, (lookupRow a l).getD (a.cols.map fun _ => none)
              ++ (lookupRow b l).getD (b.cols.map fun _ => none))) }
  else .error "cannot reindex on an axis with duplicate labels"

/-- The cell of a dataframe at a row label and a column name (`none` when
missing or NaN). -/
def dfCell (d : DF) (l c : String) : Option PyVal :=
  match lookupRow d l with
  | some cells => cellAt d.cols cells c
  | none => none

/-- The sweep rows of a dataframe.  Every row appended by
`analyze_steady_states` carries the index label `'concentration'` (it is
the transpose of the one-column frame `get_species()[['concentration']]`),
so the sweep rows are exactly the rows with that label. -/
def sweepRows (d : DF) : List (String × List (Option PyVal)) :=
  d.rows.filter (fun r => r.1 == "concentration")

/-- Lines 70-74: the initially empty analysis dataframe, whose columns are
the literal string `'name'` followed by the model's species names
(`list_of_species_names.insert(0, 'name')`). -/
def emptyAnalysisDf (speciesNames : List String) : DF :=
  { cols := "name" :: speciesNames, rows := [] }

/-- Lines 180-184: `new_data`, the transpose of
`get_species()[['concentration']]` (one row labelled `'concentration'`,
one column per species) with the column `'IP_tot'` set to the original,
uncoerced loop value. -/
def new_data_df (speciesNames : List String) (conc : List Dec) (concentration : PyVal) : DF :=
  { cols := speciesNames ++ ["IP_tot"]
    rows := [("concentration",
      conc.map (fun q => some (PyVal.num q)) ++ [some concentration])] }

/-- Net effect of `handle_parameters_df` (lines 192-223) on a parameter
snapshot: add a `'rates'` column holding the index, drop the index and the
`'type'`, `'mapped_to'`, `'reaction'` columns (keeping `'value'`),
transpose, use the `'rates'` row as the header and drop it, and reset the
remaining index — one row labelled `0`, one column per parameter name,
cells the parameter values. -/
def handle_parameters_df (params : List (String × Dec)) : DF :=
  { cols := params.map Prod.fst
    rows := [("0", params.map (fun p => some (PyVal.num p.2)))] }

/-- The species-selection loop of `cli_initial_conc` (lines 56-65) as a
function of the typed tokens: the sentinel returns the accumulated list, a
name absent from the validation list is rejected with no state change, any
other name is appended. -/
def cliInitialConcAux (list_of_species_names : List String) (acc : List String) :
    List String → List String
  | [] => acc
  | t :: rest =>
    if isDone t then acc
    else if list_of_species_names.contains t then
      cliInitialConcAux list_of_species_names (acc ++ [t]) rest
    else
      cliInitialConcAux list_of_species_names acc rest

/-- `cli_initial_conc` (lines 37-67): run the selection loop starting from
the empty list.  Note that the caller on line 77 passes
`list_of_species_names`, i.e. the species universe with the extra literal
entry `'name'` prepended on line 73. -/
def cli_initial_conc (list_of_species_names : List String)
    (tokens : List String) : List String :=
  cliInitialConcAux list_of_species_names [] tokens

/-- Control position inside `cli_set_rates`: at the outer name prompt, or
inside the inner numeric-entry loop for a chosen parameter name. -/
inductive RateMode where
  | outer : RateMode
  | inner : String → RateMode

/-- The nested loops of `cli_set_rates` (lines 99-118) as a state machine
over the typed tokens.  In the outer mode the sentinel ends the loop, an
unknown name is rejected, a known name enters the inner mode; in the inner
mode a token that fails to parse as a float repeats the inner loop, and a
parsing token applies the override immediately and returns to the outer
mode.  `list_of_rates` is computed once, on entry (line 86). -/
def cliSetRatesRun (list_of_rates : List String) :
    RateMode → ModelState → List String → ModelState
  | _, st, [] => st
  | .outer, st, t :: rest =>
    if isDone t then st
    else if list_of_rates.contains t then
      cliSetRatesRun list_of_rates (.inner t) st rest
    else
      cliSetRatesRun list_of_rates .outer st rest
  | .inner name, st, t :: rest =>
    match strFloat t with
    | some v => cliSetRatesRun list_of_rates .outer (set_reaction_parameters name v st) rest
    | none => cliSetRatesRun list_of_rates (.inner name) st rest

/-- `cli_set_rates` (lines 80-123): run the parameter-override state
machine from the outer prompt; `list_of_rates` is the model's parameter
names at entry. -/
def cli_set_rates (st : ModelState) (tokens : List String) : ModelState :=
  cliSetRatesRun (st.params.map Prod.fst) .outer st tokens

/-- `analyze_steady_states` (lines 150-189): for each value of the
concentration sequence, `set_init_conc` (a `ValueError` skips the value
with no model mutation), then `run_steadystate()` and the read-back
`get_species()[['concentration']]` — both modelled by the oracle
`readConc`, whose `none` is the `KeyError` that skips the value — and on
success append the transposed snapshot row tagged with `IP_tot`. -/
def analyze_steady_states (speciesNames : List String)
    (readConc : ModelState → Option (List Dec)) (st : ModelState)
    (conc_list_from_excel : List PyVal) (list_of_species_init_conc : List String)
    (steady_state_analysis_df : DF) : DF :=
  match conc_list_from_excel with
  | [] => steady_state_analysis_df
  | concentration :: rest =>
    match set_init_conc list_of_species_init_conc concentration st with
    | .error _ =>
      analyze_steady_states speciesNames readConc st rest
        list_of_species_init_conc steady_state_analysis_df
    | .ok st₁ =>
      match readConc st₁ with
      | none =>
        analyze_steady_states speciesNames readConc st₁ rest
          list_of_species_init_conc steady_state_analysis_df
      | some conc =>
        analyze_steady_states speciesNames readConc st₁ rest
          list_of_species_init_conc
          (dfAppend steady_state_analysis_df (new_data_df speciesNames conc concentration))

/-- The inputs the script consumes: the concentration sequence from the
spreadsheet and the two interactive token streams. -/
structure ProgramInput where
  concList : List PyVal
  speciesTokens : List String
  rateTokens : List String

/-- The module-level flow of `src/main.py` after the model is loaded:
build the empty analysis frame over `'name' ::` species (lines 70-74), run
the species-selection loop (line 77), run the parameter-override loop
(line 126), then concatenate the analysis frame with the parameter
snapshot column-wise (line 226) — the frame written to the CSV on line
229.  `analyze_steady_states` is defined but never invoked, so the
concentration sequence and the species selection are never consumed. -/
def runProgram (st₀ : ModelState) (inp : ProgramInput) : Except String DF :=
  let list_of_species_names := "name" :: st₀.init.map Prod.fst
  let steady_state_analysis_df : DF := { cols := list_of_species_names, rows := [] }
  let list_of_species_init_conc := cli_initial_conc list_of_species_names inp.speciesTokens
  let st₁ := cli_set_rates st₀ inp.rateTokens
  let _ := (inp.concList, list_of_species_init_conc)
  concatCols steady_state_analysis_df (handle_parameters_df st₁.params)

/-! ## Helper lemmas -/

/-- `updAssoc` never changes the key list of an association list. -/
theorem updAssoc_map_fst (k : String) (v : Dec) (l : List (String × Dec)) :
    (updAssoc k v l).map Prod.fst = l.map Prod.fst := by
  induction l with
  | nil => rfl
  | cons a t ih =>
    obtain ⟨a₁, a₂⟩ := a
    by_cases h : a₁ = k
    · simp [updAssoc, h]
    · simp [updAssoc, h, ih]

/-- Concatenating the empty analysis frame column-wise with the one-row
parameter snapshot succeeds and yields the snapshot row padded with NaN
cells under the analysis columns. -/
theorem concatCols_empty_left_param (cs : List String) (ps : List (String × Dec)) :
    concatCols { cols := cs, rows := [] } (handle_parameters_df ps) =
      Except.ok { cols := cs ++ ps.map Prod.fst
                  rows := [("0", (cs.map fun _ => none)
                    ++ ps.map (fun p => some (PyVal.num p.2)))] } := rfl

/-- A sweep run in which every value fails float coercion leaves the
analysis dataframe untouched. -/
theorem analyze_all_coercion_fail (sp : List String)
    (readConc : ModelState → Option (List Dec)) (st : ModelState)
    (cl : List PyVal) (sel : List String) (df : DF)
    (h : ∀ c ∈ cl, pyFloat c = none) :
    analyze_steady_states sp readConc st cl sel df = df := by
  induction cl generalizing st with
  | nil => rfl
  | cons a t ih =>
    have ha : pyFloat a = none := h a (List.mem_cons_self a t)
    simp only [analyze_steady_states, set_init_conc, ha]
    exact ih st (fun c hc => h c (List.mem_cons_of_mem a hc))

/-- The inner numeric-entry loop of `cli_set_rates` consumes tokens that
fail to parse as floats without leaving the inner mode or changing the
model. -/
theorem cliSetRatesRun_inner_skips (P : List String) (name : String)
    (junk rest : List String) (st : ModelState)
    (h : ∀ j ∈ junk, strFloat j = none) :
    cliSetRatesRun P (.inner name) st (junk ++ rest) =
      cliSetRatesRun P (.inner name) st rest := by
  induction junk with
  | nil => rfl
  | cons a t ih =>
    have ha : strFloat a = none := h a (List.mem_cons_self a t)
    rw [List.cons_append]
    simp only [cliSetRatesRun, ha]
    exact ih (fun j hj => h j (List.mem_cons_of_mem a hj))

/-! ## Claims -/

/-- C1: the claim says that for a concentration sequence of length N on
which every coercion, solve and read succeeds, the final ResultTable has
exactly N data rows.  The shipped program never invokes
`analyze_steady_states`: at the failing input — species universe `A`,
parameter `k1 = 2`, the one-element, all-successful sequence `[1.0]` — the
frame written to the CSV has zero sweep rows, not one. -/
theorem c1_program_has_no_sweep_rows :
    (runProgram ⟨[("A", ⟨1, 0⟩)], [("k1", ⟨2, 0⟩)]⟩
        ⟨[PyVal.num ⟨1, 0⟩], ["A", "done"], ["done"]⟩).map
      (fun d => (sweepRows d).length) = Except.ok 0 ∧ (0 : ℕ) ≠ 1 :=
  ⟨rfl, by decide⟩

/-- C2: the top-level program never invokes `analyze_steady_states`; for
every input the written frame is the column-wise concatenation of the
initially empty species dataframe with the one-row parameter snapshot, it
does not depend on the concentration sequence, and it has no sweep rows
(its only row is the snapshot row, labelled `0`). -/
theorem c2_csv_is_param_snapshot_only (st₀ : ModelState) (inp : ProgramInput) :
    (∀ cs, runProgram st₀ { inp with concList := cs } = runProgram st₀ inp) ∧
    runProgram st₀ inp =
      concatCols (emptyAnalysisDf (st₀.init.map Prod.fst))
        (handle_parameters_df (cli_set_rates st₀ inp.rateTokens).params) ∧
    ∃ df, runProgram st₀ inp = Except.ok df ∧ sweepRows df = [] ∧ df.labels = ["0"] := by
  exact ⟨fun cs => rfl, rfl,
    ⟨_, concatCols_empty_left_param _ _, by simp [sweepRows], rfl⟩⟩

/-- C3 counterexample: assemble a block holding exactly one sweep row
(species `A`, steady state `3`, swept value `1`) with the parameter
snapshot `k1 = 2`.  The claim says the snapshot is broadcast, so the data
row's `k1` cell would hold `2`; in fact it holds NaN. -/
theorem c3_counterexample :
    (concatCols
        (dfAppend (emptyAnalysisDf ["A"]) (new_data_df ["A"] [⟨3, 0⟩] (.num ⟨1, 0⟩)))
        (handle_parameters_df [("k1", ⟨2, 0⟩)])).map
      (fun d => dfCell d "concentration" "k1") = Except.ok none ∧
    (none : Option PyVal) ≠ some (.num ⟨2, 0⟩) :=
  ⟨rfl, by decide⟩

/-- C3 amended: the parameter snapshot is not broadcast across sweep rows.
With exactly one sweep row, the assembled table's data row is the sweep
cells followed by NaN in every parameter column, and the snapshot values
appear only in the separate row labelled `0`. -/
theorem c3_snapshot_not_broadcast (sp : List String) (vals : List Dec)
    (ip : PyVal) (ps : List (String × Dec)) :
    ∃ df,
      concatCols (dfAppend (emptyAnalysisDf sp) (new_data_df sp vals ip))
          (handle_parameters_df ps) = Except.ok df ∧
      lookupRow df "concentration" =
        (lookupRow (dfAppend (emptyAnalysisDf sp) (new_data_df sp vals ip))
            "concentration").map
          (fun cells => cells ++ (ps.map Prod.fst).map (fun _ => none)) ∧
      lookupRow df "0" =
        some (((dfAppend (emptyAnalysisDf sp) (new_data_df sp vals ip)).cols).map
            (fun _ => none)
          ++ ps.map (fun p => some (PyVal.num p.2))) := by
  exact ⟨_, rfl, rfl, rfl⟩

/-- C4 counterexample: at a run with species universe `A` and parameter
`k1` (every sweep iteration skipped, as in every run of the shipped
program), the assembled column order is `name`, `A`, `k1` — a literal
`name` column first and no swept-value column — not the claimed
`A`, `IP_tot`, `k1`. -/
theorem c4_counterexample :
    (runProgram ⟨[("A", ⟨5, 0⟩)], [("k1", ⟨3, 0⟩)]⟩ ⟨[], ["done"], ["done"]⟩).map
      DF.cols = Except.ok ["name", "A", "k1"] ∧
    (["name", "A", "k1"] : List String) ≠ ["A", "IP_tot", "k1"] :=
  ⟨rfl, by decide⟩

/-- C4 amended: when every sweep iteration is skipped the analysis frame
stays the initial empty frame, and the assembled table has zero sweep rows
(its only row is the parameter-snapshot row) and columns: the literal
`name` column, then the species columns in model order, then the parameter
columns — no swept-value column. -/
theorem c4_all_skipped_column_contract (sp : List String)
    (readConc : ModelState → Option (List Dec)) (st : ModelState)
    (sel : List String) (cl : List PyVal) (ps : List (String × Dec))
    (h : ∀ c ∈ cl, pyFloat c = none) :
    analyze_steady_states sp readConc st cl sel (emptyAnalysisDf sp) =
      emptyAnalysisDf sp ∧
    ∃ df,
      concatCols (analyze_steady_states sp readConc st cl sel (emptyAnalysisDf sp))
          (handle_parameters_df ps) = Except.ok df ∧
      df.cols = "name" :: sp ++ ps.map Prod.fst ∧
      sweepRows df = [] ∧ df.labels = ["0"] := by
  have hskip := analyze_all_coercion_fail sp readConc st cl sel (emptyAnalysisDf sp) h
  refine ⟨hskip, ⟨_, by rw [hskip]; exact concatCols_empty_left_param _ _, ?_, ?_, ?_⟩⟩
  · simp [emptyAnalysisDf]
  · simp [sweepRows]
  · rfl

/-- C4 amended, witness: every value of the one-element sequence `["x"]`
fails coercion, and the conclusion holds at a concrete run. -/
theorem c4_all_skipped_column_contract_witness :
    (∀ c ∈ [PyVal.str "x"], pyFloat c = none) ∧
    (analyze_steady_states ["A"] (fun _ => none) ⟨[("A", ⟨0, 0⟩)], []⟩
        [PyVal.str "x"] ["A"] (emptyAnalysisDf ["A"]) = emptyAnalysisDf ["A"] ∧
     ∃ df,
       concatCols
           (analyze_steady_states ["A"] (fun _ => none) ⟨[("A", ⟨0, 0⟩)], []⟩
             [PyVal.str "x"] ["A"] (emptyAnalysisDf ["A"]))
           (handle_parameters_df [("k1", ⟨3, 0⟩)]) = Except.ok df ∧
       df.cols = "name" :: ["A"] ++ [("k1", (⟨3, 0⟩ : Dec))].map Prod.fst ∧
       sweepRows df = [] ∧ df.labels = ["0"]) :=
  ⟨by decide, c4_all_skipped_column_contract ["A"] (fun _ => none)
    ⟨[("A", ⟨0, 0⟩)], []⟩ ["A"] [PyVal.str "x"] [("k1", ⟨3, 0⟩)] (by decide)⟩

/-- C5 counterexample: the claim says the species loop's sentinel is the
exact case-sensitive token `done`, so `DONE` would be rejected as an
unknown name and the following valid `A` would be selected, giving `["A"]`.
The code lowercases the token before the sentinel test (line 59), so
`DONE` terminates the loop at once and the selection is empty. -/
theorem c5_counterexample :
    cli_initial_conc ["name", "A"] ["DONE", "A", "done"] = [] ∧
    ([] : List String) ≠ ["A"] :=
  ⟨rfl, by decide⟩

/-- C5 amended: the two loops' sentinel case rules are identical, not
different: each loop terminates on any token whose lowercasing is `done`,
returning the empty selection (species loop started fresh) respectively
leaving the model untouched (parameter loop). -/
theorem c5_both_loops_case_insensitive (t : String) (h : lowerStr t = "done")
    (names rest : List String) (st : ModelState) (rest' : List String) :
    cli_initial_conc names (t :: rest) = [] ∧ cli_set_rates st (t :: rest') = st := by
  have hd : isDone t = true := by simp [isDone, h]
  constructor
  · simp [cli_initial_conc, cliInitialConcAux, hd]
  · simp [cli_set_rates, cliSetRatesRun, hd]

/-- C5 amended, witness: `DONE` lowercases to `done` and ends both loops. -/
theorem c5_both_loops_case_insensitive_witness :
    lowerStr "DONE" = "done" ∧
    (cli_initial_conc ["name", "A"] ["DONE", "A"] = [] ∧
     cli_set_rates ⟨[], [("k1", ⟨1, 0⟩)]⟩ ["DONE", "k1"] = ⟨[], [("k1", ⟨1, 0⟩)]⟩) :=
  ⟨by decide, c5_both_loops_case_insensitive "DONE" (by decide) ["name", "A"] ["A"]
    ⟨[], [("k1", ⟨1, 0⟩)]⟩ ["k1"]⟩

/-- C6: the claim says the selected collection contains exactly the typed
tokens that are names in the species universe, and that an unknown name is
never added.  The code is a slip: line 73 prepends the literal string
`name` (a dataframe column header) to the species-name list, and line 77
passes that list as the validation universe, so with species universe
`["A"]` the token `name` — not a species — is accepted and selected. -/
theorem c6_accepts_literal_name_token :
    cli_initial_conc ["name", "A"] ["name", "done"] = ["name"] ∧
    "name" ∉ (["A"] : List String) :=
  ⟨rfl, by decide⟩

/-- C7 counterexample: with species `A`, a solver that always yields a
steady state, and the sequence `[1.0, "x"]` whose second value fails float
coercion, the sweep produces 1 row; for the same sequence without that
value (`[1.0]`) it also produces 1 row.  The claim says the first count is
one below the second, i.e. `1 = 1 - 1`, which is false: skipping a value
leaves the count equal to that of the sequence without it. -/
theorem c7_counterexample :
    (sweepRows (analyze_steady_states ["A"] (fun _ => some [⟨3, 0⟩])
        ⟨[("A", ⟨0, 0⟩)], []⟩ [.num ⟨1, 0⟩, .str "x"] ["A"]
        (emptyAnalysisDf ["A"]))).length = 1 ∧
    (sweepRows (analyze_steady_states ["A"] (fun _ => some [⟨3, 0⟩])
        ⟨[("A", ⟨0, 0⟩)], []⟩ [.num ⟨1, 0⟩] ["A"]
        (emptyAnalysisDf ["A"]))).length = 1 ∧
    ¬((1 : ℕ) = 1 - 1) :=
  ⟨rfl, rfl, by decide⟩

/-- C7 amended: a sweep value that fails float coercion is skipped before
any model mutation and before any solve: the whole run equals the run on
the same sequence with that value deleted — its row is absent, so the row
count equals (rather than undercuts by one) the count for the sequence
without that value, and is one below what a successful iteration would
have added. -/
theorem c7_coercion_failure_is_deletion (sp : List String)
    (readConc : ModelState → Option (List Dec)) (st : ModelState)
    (sel : List String) (pre post : List PyVal) (c : PyVal) (df : DF)
    (h : pyFloat c = none) :
    analyze_steady_states sp readConc st (pre ++ c :: post) sel df =
      analyze_steady_states sp readConc st (pre ++ post) sel df := by
  induction pre generalizing st df with
  | nil => simp only [List.nil_append, analyze_steady_states, set_init_conc, h]
  | cons a t ih =>
    cases hpa : pyFloat a with
    | none =>
      simp only [List.cons_append, analyze_steady_states, set_init_conc, hpa]
      exact ih st df
    | some x =>
      simp only [List.cons_append, analyze_steady_states, set_init_conc, hpa]
      cases hr : readConc (setSpeciesList sel x st) with
      | none => simp only [hr]; exact ih _ df
      | some conc => simp only [hr]; exact ih _ _

/-- C7 amended, witness: `"x"` fails coercion and the run on
`[1.0, "x"]` equals the run on `[1.0]`. -/
theorem c7_coercion_failure_is_deletion_witness :
    pyFloat (.str "x") = none ∧
    analyze_steady_states ["A"] (fun _ => some [⟨3, 0⟩]) ⟨[("A", ⟨0, 0⟩)], []⟩
        ([.num ⟨1, 0⟩] ++ .str "x" :: []) ["A"] (emptyAnalysisDf ["A"]) =
      analyze_steady_states ["A"] (fun _ => some [⟨3, 0⟩]) ⟨[("A", ⟨0, 0⟩)], []⟩
        ([.num ⟨1, 0⟩] ++ []) ["A"] (emptyAnalysisDf ["A"]) :=
  ⟨by decide, c7_coercion_failure_is_deletion ["A"] (fun _ => some [⟨3, 0⟩])
    ⟨[("A", ⟨0, 0⟩)], []⟩ ["A"] [.num ⟨1, 0⟩] [] (.str "x")
    (emptyAnalysisDf ["A"]) (by decide)⟩

/-- C8: when the post-solve concentration read fails (the `KeyError`
branch, lines 174-178), the iteration appends no row and the engine
continues with the next value from the post-solve model state — the sweep
is a total function of its inputs, so no per-iteration exception escapes
it. -/
theorem c8_read_failure_skips_and_continues (sp : List String)
    (readConc : ModelState → Option (List Dec)) (st : ModelState)
    (sel : List String) (c : PyVal) (rest : List PyVal) (df : DF) (x : Dec)
    (hc : pyFloat c = some x)
    (hr : readConc (setSpeciesList sel x st) = none) :
    analyze_steady_states sp readConc st (c :: rest) sel df =
      analyze_steady_states sp readConc (setSpeciesList sel x st) rest sel df := by
  simp only [analyze_steady_states, set_init_conc, hc, hr]

/-- C8 witness: a read oracle that always fails makes the first iteration
skip and continue. -/
theorem c8_read_failure_skips_and_continues_witness :
    pyFloat (.num ⟨1, 0⟩) = some ⟨1, 0⟩ ∧
    analyze_steady_states ["A"] (fun _ => none) ⟨[("A", ⟨0, 0⟩)], []⟩
        [.num ⟨1, 0⟩] ["A"] (emptyAnalysisDf ["A"]) =
      analyze_steady_states ["A"] (fun _ => none)
        (setSpeciesList ["A"] ⟨1, 0⟩ ⟨[("A", ⟨0, 0⟩)], []⟩) [] ["A"]
        (emptyAnalysisDf ["A"]) :=
  ⟨rfl, c8_read_failure_skips_and_continues ["A"] (fun _ => none)
    ⟨[("A", ⟨0, 0⟩)], []⟩ ["A"] (.num ⟨1, 0⟩) [] (emptyAnalysisDf ["A"])
    ⟨1, 0⟩ rfl rfl⟩

/-- C9: after a known, non-sentinel parameter name, the inner numeric
loop consumes any run of tokens that fail to parse as floats (malformed
text never aborts — the loop only repeats), and as soon as a token parses
the override is applied to the model immediately, before the outer loop
continues with the remaining tokens. -/
theorem c9_inner_loop_retries_then_applies (st : ModelState) (name : String)
    (junk : List String) (v : String) (rest : List String) (x : Dec)
    (hmem : name ∈ st.params.map Prod.fst)
    (hnd : lowerStr name ≠ "done")
    (hjunk : ∀ j ∈ junk, strFloat j = none)
    (hv : strFloat v = some x) :
    cli_set_rates st (name :: (junk ++ v :: rest)) =
      cli_set_rates (set_reaction_parameters name x st) rest := by
  have hd : isDone name = false := by simp [isDone, hnd]
  have hc : (st.params.map Prod.fst).contains name = true := by
    simpa using hmem
  show cliSetRatesRun (st.params.map Prod.fst) .outer st (name :: (junk ++ v :: rest)) = _
  simp only [cliSetRatesRun, hd, hc, Bool.false_eq_true, if_false, if_true]
  rw [cliSetRatesRun_inner_skips _ _ _ _ _ hjunk]
  simp only [cliSetRatesRun, hv]
  unfold cli_set_rates
  rw [set_reaction_parameters, updAssoc_map_fst]

/-- C9 witness: for parameter `k1`, the malformed token `abc` repeats the
inner loop and `2.5` then applies the override. -/
theorem c9_inner_loop_retries_then_applies_witness :
    ("k1" ∈ ([("k1", (⟨1, 0⟩ : Dec))].map Prod.fst)) ∧
    lowerStr "k1" ≠ "done" ∧
    (∀ j ∈ ["abc"], strFloat j = none) ∧
    strFloat "2.5" = some ⟨25, 1⟩ ∧
    cli_set_rates ⟨[], [("k1", ⟨1, 0⟩)]⟩ ("k1" :: (["abc"] ++ "2.5" :: [])) =
      cli_set_rates (set_reaction_parameters "k1" ⟨25, 1⟩ ⟨[], [("k1", ⟨1, 0⟩)]⟩) [] :=
  ⟨by decide, by decide, by decide, by decide,
    c9_inner_loop_retries_then_applies ⟨[], [("k1", ⟨1, 0⟩)]⟩ "k1" ["abc"] "2.5"
      [] ⟨25, 1⟩ (by decide) (by decide) (by decide) (by decide)⟩

/-- C10: typing `A`, `A`, `done` with `A` a valid name yields the
selection list `["A", "A"]` (the code uses list semantics and re-appends
duplicates without error), which viewed as a set is exactly `{"A"}`. -/
theorem c10_duplicate_entries (names : List String) (h : "A" ∈ names) :
    cli_initial_conc names ["A", "A", "done"] = ["A", "A"] ∧
    ∀ x, x ∈ cli_initial_conc names ["A", "A", "done"] ↔ x = "A" := by
  have hA : isDone "A" = false := by decide
  have hdone : isDone "done" = true := by decide
  have he : cli_initial_conc names ["A", "A", "done"] = ["A", "A"] := by
    simp [cli_initial_conc, cliInitialConcAux, hA, hdone, h]
  refine ⟨he, fun x => ?_⟩
  rw [he]
  simp

/-- C10 witness: with the validation list the program passes
(`["name", "A"]`), the duplicate scenario gives `["A", "A"]`, i.e. the
set `{"A"}`. -/
theorem c10_duplicate_entries_witness :
    ("A" ∈ ["name", "A"]) ∧
    (cli_initial_conc ["name", "A"] ["A", "A", "done"] = ["A", "A"] ∧
     ∀ x, x ∈ cli_initial_conc ["name", "A"] ["A", "A", "done"] ↔ x = "A") :=
  ⟨by decide, c10_duplicate_entries ["name", "A"] (by decide)⟩
